/-
Verification of the resilience layer of the openwebui tool servers:
the retry-with-backoff decorator and the tiered (Redis + in-memory) cache
from caldav-tool/main.py (and the retry variant from todoist-tool/main.py),
shallowly embedded in Lean 4.
-/
import Mathlib

namespace OpenWebUI

/-! ## Retry decorator (`retry_on_failure` in caldav-tool/main.py lines 46-107,
and the todoist-tool variant at lines 40-101).

An invocation of the wrapped function is modelled as a function from the
0-indexed invocation number to its outcome: either a returned value or a
raised exception.  Exceptions are classified by the `except` clauses of the
source: `requests.exceptions.RequestException`, `caldav.lib.error.DAVError`,
`fastapi.HTTPException` (carrying its status code), and any other exception
(which no `except` clause of the wrapper catches). -/

/-- An exception raised by the wrapped operation. -/
inductive RErr where
  /-- `requests.exceptions.RequestException` (transport failure). -/
  | request (msg : String)
  /-- `caldav.lib.error.DAVError`. -/
  | dav (msg : String)
  /-- `fastapi.HTTPException` with its status code. -/
  | http (status : Nat)
  /-- any exception of a class not caught by the wrapper. -/
  | other (msg : String)
  deriving DecidableEq, Repr

/-- Outcome of one run of the wrapper: the wrapped function returned a value,
an exception propagated to the caller, or the `while` loop condition became
false and the wrapper implicitly returned Python `None` (we prove below this
last case is unreachable from a fresh call). -/
inductive ROutcome (α : Type) where
  | value (v : α)
  | raised (e : RErr)
  | fellThrough
  deriving DecidableEq, Repr

/-- Observable result of one run of the wrapper: its outcome, the number of
times the wrapped function was invoked, and the total time slept via
`time.sleep`. -/
structure RetryResult (α : Type) where
  outcome : ROutcome α
  calls : Nat
  sleepTotal : ℚ
  deriving DecidableEq, Repr

/-- One exception raised during an invocation of the wrapped operation:
`op i` is what the `i`-th invocation (0-indexed) does. -/
abbrev ROp (α : Type) := Nat → Except RErr α

/-- The `while retries <= max_retries` loop of the caldav `wrapper`.
State: `retries` is the Python local of the same name, `calls` counts
invocations so far, `sleepAcc` accumulates the slept delays.
The first `except` clause catches `RequestException` and `DAVError`
together; the second catches `HTTPException`, re-raising when
`status_code < 500`; any other exception propagates uncaught.
After catching, `retries` is incremented, the wrapper re-raises when
`retries > max_retries`, and otherwise sleeps
`base_delay * 2 ** (retries - 1)` (with the incremented `retries`,
so the exponent equals the pre-increment value) and loops. -/
def retryGo (op : ROp α) (max_retries : Nat) (base_delay : ℚ)
    (retries calls : Nat) (sleepAcc : ℚ) : RetryResult α :=
  if _h : retries ≤ max_retries then
    match op calls with
    | .ok v => ⟨.value v, calls + 1, sleepAcc⟩
    | .error (.request m) =>
      if h2 : max_retries < retries + 1 then ⟨.raised (.request m), calls + 1, sleepAcc⟩
      else retryGo op max_retries base_delay (retries + 1) (calls + 1)
        (sleepAcc + base_delay * 2 ^ retries)
    | .error (.dav m) =>
      if h2 : max_retries < retries + 1 then ⟨.raised (.dav m), calls + 1, sleepAcc⟩
      else retryGo op max_retries base_delay (retries + 1) (calls + 1)
        (sleepAcc + base_delay * 2 ^ retries)
    | .error (.http s) =>
      if h3 : s < 500 then ⟨.raised (.http s), calls + 1, sleepAcc⟩
      else if h2 : max_retries < retries + 1 then ⟨.raised (.http s), calls + 1, sleepAcc⟩
      else retryGo op max_retries base_delay (retries + 1) (calls + 1)
        (sleepAcc + base_delay * 2 ^ retries)
    | .error (.other m) => ⟨.raised (.other m), calls + 1, sleepAcc⟩
  else ⟨.fellThrough, calls, sleepAcc⟩
termination_by max_retries + 1 - retries

/-- Running the caldav `retry_on_failure(max_retries, base_delay)` wrapper
around `op`: `retries` starts at 0, no invocations or sleep yet. -/
def retry_on_failure (max_retries : Nat) (base_delay : ℚ) (op : ROp α) : RetryResult α :=
  retryGo op max_retries base_delay 0 0 0

/-- The todoist-tool `wrapper` loop: identical except that its first
`except` clause catches only `RequestException`, so a `DAVError`
propagates uncaught like any other foreign exception. -/
def retryGoTd (op : ROp α) (max_retries : Nat) (base_delay : ℚ)
    (retries calls : Nat) (sleepAcc : ℚ) : RetryResult α :=
  if _h : retries ≤ max_retries then
    match op calls with
    | .ok v => ⟨.value v, calls + 1, sleepAcc⟩
    | .error (.request m) =>
      if h2 : max_retries < retries + 1 then ⟨.raised (.request m), calls + 1, sleepAcc⟩
      else retryGoTd op max_retries base_delay (retries + 1) (calls + 1)
        (sleepAcc + base_delay * 2 ^ retries)
    | .error (.dav m) => ⟨.raised (.dav m), calls + 1, sleepAcc⟩
    | .error (.http s) =>
      if h3 : s < 500 then ⟨.raised (.http s), calls + 1, sleepAcc⟩
      else if h2 : max_retries < retries + 1 then ⟨.raised (.http s), calls + 1, sleepAcc⟩
      else retryGoTd op max_retries base_delay (retries + 1) (calls + 1)
        (sleepAcc + base_delay * 2 ^ retries)
    | .error (.other m) => ⟨.raised (.other m), calls + 1, sleepAcc⟩
  else ⟨.fellThrough, calls, sleepAcc⟩
termination_by max_retries + 1 - retries

/-- The todoist `retry_on_failure` wrapper. -/
def retry_on_failure_todoist (max_retries : Nat) (base_delay : ℚ) (op : ROp α) : RetryResult α :=
  retryGoTd op max_retries base_delay 0 0 0

/-- An exception is retryable for the caldav wrapper iff it is a transport
error (`RequestException`/`DAVError`) or an `HTTPException` with a 5xx
status. -/
def isRetryable : RErr → Bool
  | .request _ => true
  | .dav _ => true
  | .http s => 500 ≤ s
  | .other _ => false

/-! ## Tiered cache (caldav-tool/main.py lines 159-278).

Cache values are the JSON-serializable Python values the tool caches
(`json.dumps`/`json.loads` round-trips through Redis). `JsonValue.null`
models Python `None`, which is also what `get_cached` returns for
"absent" — so at the caller a cached `None` and a miss are the same value.
The in-memory store `_memory_cache` is a dict from key to
`(value, expiry)`; we model it as an association list whose first match
is the binding (Python dict keys are unique; assignment replaces in
place, `del` removes). Time (`time.time()`) and TTLs are rationals. -/

/-- A JSON-compatible Python value. -/
inductive JsonValue where
  | null
  | bool (b : Bool)
  | num (n : ℤ)
  | str (s : String)
  | arr (xs : List JsonValue)
  | obj (fields : List (String × JsonValue))

/-- Minimal JSON string escaping (backslash and double quote); the further
escaping `json.dumps` performs (control characters, non-ASCII) never
changes equality of serializations and is elided. -/
def escapeJson (s : String) : String :=
  String.join (s.data.map fun c =>
    if c = '\\' then "\\\\" else if c = '"' then "\\\"" else String.singleton c)

/-- Ordering of JSON object fields by key, as `sort_keys=True` sorts them. -/
def keyLE (a b : String × JsonValue) : Prop := a.1 ≤ b.1

instance : DecidableRel keyLE := fun a b => inferInstanceAs (Decidable (a.1 ≤ b.1))

instance : IsTotal (String × JsonValue) keyLE := ⟨fun a b => le_total a.1 b.1⟩

instance : IsTrans (String × JsonValue) keyLE := ⟨fun _ _ _ h1 h2 => le_trans h1 h2⟩

mutual

/-- `json.dumps(v, sort_keys=True)` with the default separators
`", "` and `": "`. Nested object fields are serialized in stored order
(every call site of `get_cache_key` passes flat scalar parameters, so
nested objects never reach the sorted serialization); the top-level
kwargs dict is sorted by `dumpsKwargs` below. -/
def jsonDumps : JsonValue → String
  | .null => "null"
  | .bool true => "true"
  | .bool false => "false"
  | .num n => toString n
  | .str s => "\"" ++ escapeJson s ++ "\""
  | .arr xs => "[" ++ jsonDumpsList xs ++ "]"
  | .obj fs => "\x7b" ++ jsonDumpsFields fs ++ "\x7d"

/-- Comma-separated serialization of a JSON array's elements. -/
def jsonDumpsList : List JsonValue → String
  | [] => ""
  | [x] => jsonDumps x
  | x :: y :: xs => jsonDumps x ++ ", " ++ jsonDumpsList (y :: xs)

/-- Comma-separated serialization of a JSON object's fields. -/
def jsonDumpsFields : List (String × JsonValue) → String
  | [] => ""
  | [(k, v)] => "\"" ++ escapeJson k ++ "\": " ++ jsonDumps v
  | (k, v) :: f :: fs =>
    "\"" ++ escapeJson k ++ "\": " ++ jsonDumps v ++ ", " ++ jsonDumpsFields (f :: fs)

end

/-- `json.dumps(kwargs, sort_keys=True)`: the keyword-argument dict
serialized as a JSON object with its fields sorted by key. -/
def dumpsKwargs (kwargs : List (String × JsonValue)) : String :=
  "\x7b" ++ jsonDumpsFields (kwargs.insertionSort keyLE) ++ "\x7d"

/-- `get_cache_key(prefix, **kwargs)` (main.py lines 193-196):
`key_data = f"PREFIX:DUMP"` hashed with `hashlib.md5(...).hexdigest()`.
The MD5 hex digest is an opaque deterministic function of the input
string, taken here as a parameter `digest`. -/
def get_cache_key (digest : String → String) (opName : String)
    (kwargs : List (String × JsonValue)) : String :=
  digest (opName ++ ":" ++ dumpsKwargs kwargs)

/-- The in-memory cache `_memory_cache : Dict[str, tuple[Any, float]]`:
key maps to `(value, expiry)`. -/
abbrev MemCache := List (String × (JsonValue × ℚ))

/-- Python dict assignment `_memory_cache[key] = p`: replace the existing
binding in place, else append. -/
def memInsert : MemCache → String → JsonValue × ℚ → MemCache
  | [], k, p => [(k, p)]
  | (k', p') :: rest, k, p =>
    if k' = k then (k, p) :: rest else (k', p') :: memInsert rest k p

/-- Python `del _memory_cache[key]`. -/
def memErase (st : MemCache) (k : String) : MemCache :=
  st.filter fun e => e.1 ≠ k

/-- The `with _cache_lock:` block of `get_cached` (lines 217-226): if the
key is present and unexpired return its value, if present but expired
delete it, and in the remaining cases return `None`. Returns the value
(`.null` for Python `None`) and the memory cache afterwards. -/
def localGet (st : MemCache) (k : String) (now : ℚ) : JsonValue × MemCache :=
  match st.lookup k with
  | some (v, expiry) => if now < expiry then (v, st) else (.null, memErase st k)
  | none => (.null, st)

/-- The `with _cache_lock:` block of `set_cached` (lines 244-247):
`_memory_cache[key] = (value, time.time() + ttl)`. -/
def localSet (st : MemCache) (k : String) (v : JsonValue) (ttl now : ℚ) : MemCache :=
  memInsert st k (v, now + ttl)

/-- Configuration read from the environment: `CACHE_TYPE` and whether the
`redis` package imported (`REDIS_AVAILABLE`). -/
structure CacheConfig where
  cacheType : String
  redisAvailable : Bool
  deriving DecidableEq, Repr

/-- What the Redis interaction in `get_cached` does, seen from this
process: `get_redis_client()` returned `None`; `redis.get` returned a
truthy payload deserializing to `v`; it returned a falsy payload (miss);
or the interaction raised (caught by the `except` clause). -/
inductive SharedGet where
  | noClient
  | hit (v : JsonValue)
  | miss
  | err

/-- What the Redis interaction in `set_cached` does: no client, `setex`
succeeded, or the interaction raised. -/
inductive SharedSet where
  | noClient
  | ok
  | err
  deriving DecidableEq, Repr

/-- `get_cached(key)` (lines 199-226). When `CACHE_TYPE == "redis"` and
the package is available, the Redis branch runs: a reachable client
answers from Redis alone (hit or miss), and only an exception falls
through to the memory cache. Otherwise the memory cache answers.
Every exception source sits inside `try` with a catch-all `except`, so
the function is total: no error reaches the caller. -/
def get_cached (cfg : CacheConfig) (sg : SharedGet) (st : MemCache)
    (k : String) (now : ℚ) : JsonValue × MemCache :=
  if cfg.cacheType = "redis" ∧ cfg.redisAvailable = true then
    match sg with
    | .noClient => localGet st k now
    | .hit v => (v, st)
    | .miss => (.null, st)
    | .err => localGet st k now
  else localGet st k now

/-- `set_cached(key, value, ttl)` (lines 229-247). A successful Redis
`setex` returns without touching the memory cache; no client or a Redis
exception falls through to the memory cache. Returns the memory cache
afterwards; total, so no error reaches the caller. -/
def set_cached (cfg : CacheConfig) (ss : SharedSet) (st : MemCache)
    (k : String) (v : JsonValue) (ttl now : ℚ) : MemCache :=
  if cfg.cacheType = "redis" ∧ cfg.redisAvailable = true then
    match ss with
    | .noClient => localSet st k v ttl now
    | .ok => st
    | .err => localSet st k v ttl now
  else localSet st k v ttl now

/-- What the Redis interaction in `get_cache_stats` does: no client, the
`info("stats")`/`dbsize()` calls answered, or one of them raised (the
`except` clause does `pass` and falls through to memory stats). -/
inductive SharedStats where
  | noClient
  | ok (dbsize hits misses : Nat)
  | err
  deriving DecidableEq, Repr

/-- The dict returned by `get_cache_stats`. Redis-only fields are `none`
for the memory backend. `hitRate` carries the exact ratio; the 2-decimal
display rounding (`round(..., 2)`) is elided. -/
structure CacheStats where
  type : String
  entries : Nat
  hits : Option Nat
  misses : Option Nat
  hitRate : Option ℚ
  ttlSeconds : ℤ
  deriving DecidableEq, Repr

/-- The memory-backend branch of `get_cache_stats` (lines 272-278). -/
def memStats (ttlCfg : ℤ) (st : MemCache) : CacheStats :=
  ⟨"memory", st.length, none, none, none, ttlCfg⟩

/-- `get_cache_stats()` (lines 250-278), returning the stats dict and the
memory cache afterwards (the body only reads it). `ttlCfg` is the
`CACHE_TTL` environment setting. -/
def get_cache_stats (cfg : CacheConfig) (ttlCfg : ℤ) (ss : SharedStats)
    (st : MemCache) : CacheStats × MemCache :=
  if cfg.cacheType = "redis" ∧ cfg.redisAvailable = true then
    match ss with
    | .ok dbsize hits misses =>
      (⟨"redis", dbsize, some hits, some misses,
        some (if 0 < hits + misses then
          (hits : ℚ) / (max 1 (hits + misses) : ℕ) * 100 else 0), ttlCfg⟩, st)
    | .noClient => (memStats ttlCfg st, st)
    | .err => (memStats ttlCfg st, st)
  else (memStats ttlCfg st, st)

/-! ## Theorems about the retry decorator -/

/-- Auxiliary induction for the always-failing case: from a state with
`n` retries still allowed, an operation that fails with a retryable error
on every invocation is invoked `n + 1` more times and the error of the
last invocation is re-raised. -/
lemma retryGo_all_retryable (op : ROp α) (mr : Nat) (d : ℚ)
    (hall : ∀ i, ∃ e, op i = Except.error e ∧ isRetryable e = true) :
    ∀ n retries calls sAcc e, retries + n = mr → op (calls + n) = Except.error e →
      (retryGo op mr d retries calls sAcc).outcome = ROutcome.raised e ∧
      (retryGo op mr d retries calls sAcc).calls = calls + n + 1 := by
  intro n
  induction n with
  | zero =>
    intro retries calls sAcc e hmr hop
    obtain ⟨e', he', hr'⟩ := hall calls
    rw [Nat.add_zero] at hop
    rw [he'] at hop
    injection hop with hee
    subst hee
    rw [retryGo, dif_pos (by omega : retries ≤ mr), he']
    cases e' with
    | request m =>
      dsimp only
      rw [dif_pos (by omega : mr < retries + 1)]
      exact ⟨rfl, rfl⟩
    | dav m =>
      dsimp only
      rw [dif_pos (by omega : mr < retries + 1)]
      exact ⟨rfl, rfl⟩
    | http s =>
      have hs : ¬ s < 500 := by
        simp only [isRetryable, decide_eq_true_eq] at hr'; omega
      dsimp only
      rw [dif_neg hs, dif_pos (by omega : mr < retries + 1)]
      exact ⟨rfl, rfl⟩
    | other m => simp [isRetryable] at hr'
  | succ k ih =>
    intro retries calls sAcc e hmr hop
    obtain ⟨e', he', hr'⟩ := hall calls
    rw [retryGo, dif_pos (by omega : retries ≤ mr), he']
    have hrec := ih (retries + 1) (calls + 1)
    have hop' : op (calls + 1 + k) = Except.error e := by
      rw [show calls + 1 + k = calls + (k + 1) by omega]; exact hop
    cases e' with
    | request m =>
      dsimp only
      rw [dif_neg (by omega : ¬ mr < retries + 1)]
      have := hrec (sAcc + d * 2 ^ retries) e (by omega) hop'
      exact ⟨this.1, by omega⟩
    | dav m =>
      dsimp only
      rw [dif_neg (by omega : ¬ mr < retries + 1)]
      have := hrec (sAcc + d * 2 ^ retries) e (by omega) hop'
      exact ⟨this.1, by omega⟩
    | http s =>
      have hs : ¬ s < 500 := by
        simp only [isRetryable, decide_eq_true_eq] at hr'; omega
      dsimp only
      rw [dif_neg hs, dif_neg (by omega : ¬ mr < retries + 1)]
      have := hrec (sAcc + d * 2 ^ retries) e (by omega) hop'
      exact ⟨this.1, by omega⟩
    | other m => simp [isRetryable] at hr'

/-- C2: an operation that fails with a retryable (transport or
5xx-equivalent) error on every invocation is, under `max_retries = N`,
invoked exactly `N + 1` times, and the wrapper re-raises the failure of
the last attempt unchanged. -/
theorem retry_always_failing_runs_n_plus_one (op : ROp α) (mr : Nat) (d : ℚ) (e : RErr)
    (hall : ∀ i, ∃ e, op i = Except.error e ∧ isRetryable e = true)
    (hlast : op mr = Except.error e) :
    (retry_on_failure mr d op).outcome = ROutcome.raised e ∧
    (retry_on_failure mr d op).calls = mr + 1 := by
  have h := retryGo_all_retryable op mr d hall mr 0 0 0 e (by omega) (by simpa using hlast)
  unfold retry_on_failure
  exact ⟨h.1, by omega⟩

/-- Operation raising `HTTPException(503 - i)`-style distinct 5xx errors:
invocation `i` fails with status `500 + i`. -/
def op5xx : ROp Nat := fun i => Except.error (RErr.http (500 + i))

/-- Witness for C2 at `max_retries = 3`: exactly 4 invocations and the
last attempt's error (`503`) is raised. -/
theorem retry_always_failing_runs_n_plus_one_witness :
    (retry_on_failure 3 1 op5xx).outcome = ROutcome.raised (RErr.http 503) ∧
    (retry_on_failure 3 1 op5xx).calls = 3 + 1 :=
  retry_always_failing_runs_n_plus_one op5xx 3 1 (RErr.http 503)
    (fun i => ⟨RErr.http (500 + i), rfl, by simp [isRetryable]⟩) rfl

/-- C3: an operation whose first invocation raises an `HTTPException`
with status below 500 is invoked exactly once, no sleep happens, and the
wrapper re-raises that same error, for every `max_retries` and
`base_delay`. -/
theorem retry_terminal_4xx_single_invocation (mr : Nat) (d : ℚ) (op : ROp α) (s : Nat)
    (hop : op 0 = Except.error (RErr.http s)) (hs : s < 500) :
    retry_on_failure mr d op = ⟨ROutcome.raised (RErr.http s), 1, 0⟩ := by
  unfold retry_on_failure
  rw [retryGo, dif_pos (Nat.zero_le mr), hop]
  dsimp only
  rw [dif_pos hs]

/-- Operation always raising `HTTPException(404)`. -/
def op404 : ROp Nat := fun _ => Except.error (RErr.http 404)

/-- Witness for C3 at `max_retries = 3`, `base_delay = 1`. -/
theorem retry_terminal_4xx_single_invocation_witness :
    retry_on_failure 3 1 op404 = ⟨ROutcome.raised (RErr.http 404), 1, 0⟩ :=
  retry_terminal_4xx_single_invocation 3 1 op404 404 rfl (by omega)

/-- C4: under `max_retries = 2` and `base_delay = d`, an operation that
fails with 5xx errors on its first two invocations and succeeds on the
third is invoked exactly 3 times, sleeps `d * 2^0` before the first retry
and `d * 2^1` before the second for a total of `3 * d`, and the wrapper
returns the third invocation's value. -/
theorem retry_backoff_two_5xx_then_success (d : ℚ) (op : ROp α) (s0 s1 : Nat) (v : α)
    (h0 : op 0 = Except.error (RErr.http s0)) (hs0 : 500 ≤ s0)
    (h1 : op 1 = Except.error (RErr.http s1)) (hs1 : 500 ≤ s1)
    (h2 : op 2 = Except.ok v) :
    retry_on_failure 2 d op = ⟨ROutcome.value v, 3, 3 * d⟩ := by
  unfold retry_on_failure
  rw [retryGo, dif_pos (by omega : (0 : Nat) ≤ 2), h0]
  dsimp only
  rw [dif_neg (by omega : ¬ s0 < 500), dif_neg (by omega : ¬ (2 : Nat) < 0 + 1)]
  rw [retryGo, dif_pos (by omega : (0 : Nat) + 1 ≤ 2), h1]
  dsimp only
  rw [dif_neg (by omega : ¬ s1 < 500), dif_neg (by omega : ¬ (2 : Nat) < 0 + 1 + 1)]
  rw [retryGo, dif_pos (by omega : (0 : Nat) + 1 + 1 ≤ 2), h2]
  dsimp only
  congr 1
  all_goals first
  | rfl
  | ring

/-- Operation failing with `HTTPException(503)` twice, then returning 42. -/
def opC4 : ROp Nat := fun i => if i < 2 then Except.error (RErr.http 503) else Except.ok 42

/-- Witness for C4 at `d = 1/2`: three invocations, total sleep `3/2`. -/
theorem retry_backoff_two_5xx_then_success_witness :
    retry_on_failure 2 (1 / 2) opC4 = ⟨ROutcome.value 42, 3, 3 * (1 / 2)⟩ :=
  retry_backoff_two_5xx_then_success (1 / 2) opC4 503 503 42 rfl (by omega) rfl (by omega) rfl

/-- C9: an operation whose first invocation raises an exception that is
not a `RequestException`, a `DAVError`, or an `HTTPException` is invoked
exactly once, no sleep happens, and both the caldav and the todoist
wrappers propagate that exception immediately, for every `max_retries`
and `base_delay`. -/
theorem retry_foreign_exception_propagates (mr : Nat) (d : ℚ) (op : ROp α) (m : String)
    (hop : op 0 = Except.error (RErr.other m)) :
    retry_on_failure mr d op = ⟨ROutcome.raised (RErr.other m), 1, 0⟩ ∧
    retry_on_failure_todoist mr d op = ⟨ROutcome.raised (RErr.other m), 1, 0⟩ := by
  constructor
  · unfold retry_on_failure
    rw [retryGo, dif_pos (Nat.zero_le mr), hop]
  · unfold retry_on_failure_todoist
    rw [retryGoTd, dif_pos (Nat.zero_le mr), hop]

/-- Operation always raising a foreign exception (e.g. `ValueError`). -/
def opOther : ROp Nat := fun _ => Except.error (RErr.other "ValueError")

/-- Witness for C9 at `max_retries = 3`, `base_delay = 1`. -/
theorem retry_foreign_exception_propagates_witness :
    retry_on_failure 3 1 opOther = ⟨ROutcome.raised (RErr.other "ValueError"), 1, 0⟩ ∧
    retry_on_failure_todoist 3 1 opOther = ⟨ROutcome.raised (RErr.other "ValueError"), 1, 0⟩ :=
  retry_foreign_exception_propagates 3 1 opOther "ValueError" rfl

/-! ## Theorems about the tiered cache -/

/-- Strict ordering of JSON object fields by key. -/
def keyLT (a b : String × JsonValue) : Prop := a.1 < b.1

instance : IsAntisymm (String × JsonValue) keyLT :=
  ⟨fun _ _ h1 h2 => absurd (h1.trans h2) (lt_irrefl _)⟩

/-- Sorting by key is insensitive to the input order when the keys are
distinct (the kwargs of a Python call always are). -/
lemma insertionSort_keyLE_eq_of_perm (l1 l2 : List (String × JsonValue))
    (hp : l1.Perm l2) (hnd : (l1.map Prod.fst).Nodup) :
    l1.insertionSort keyLE = l2.insertionSort keyLE := by
  have hperm : (l1.insertionSort keyLE).Perm (l2.insertionSort keyLE) :=
    (List.perm_insertionSort keyLE l1).trans (hp.trans (List.perm_insertionSort keyLE l2).symm)
  have hnd1 : ((l1.insertionSort keyLE).map Prod.fst).Nodup :=
    (((List.perm_insertionSort keyLE l1).map Prod.fst).nodup_iff).mpr hnd
  have hnd2 : ((l2.insertionSort keyLE).map Prod.fst).Nodup :=
    ((hperm.map Prod.fst).nodup_iff).mp hnd1
  have strengthen : ∀ l : List (String × JsonValue),
      List.Sorted keyLE l → (l.map Prod.fst).Nodup → List.Sorted keyLT l := by
    intro l hs hn
    have hne : l.Pairwise fun a b => a.1 ≠ b.1 := List.pairwise_map.mp hn
    exact (hs.and hne).imp fun h => lt_of_le_of_ne h.1 h.2
  exact List.eq_of_perm_of_sorted hperm
    (strengthen _ (List.sorted_insertionSort keyLE l1) hnd1)
    (strengthen _ (List.sorted_insertionSort keyLE l2) hnd2)

/-- C5: `get_cache_key` is order-independent in the parameters: two
parameter mappings with exactly the same key/value pairs (same pairs in
any insertion order, keys distinct as in any Python kwargs dict) produce
the same cache key, for every digest function and operation name — the
key is the digest of the operation name prefixed to the sorted-key
serialization of the parameters. -/
theorem get_cache_key_order_independent (digest : String → String) (opName : String)
    (k1 k2 : List (String × JsonValue)) (hp : k1.Perm k2)
    (hnd : (k1.map Prod.fst).Nodup) :
    get_cache_key digest opName k1 = get_cache_key digest opName k2 := by
  unfold get_cache_key dumpsKwargs
  rw [insertionSort_keyLE_eq_of_perm k1 k2 hp hnd]

/-- Witness for C5: the two-parameter mapping `b=1, a="x"` in both
insertion orders, under the identity digest. -/
theorem get_cache_key_order_independent_witness :
    get_cache_key (fun s => s) "events"
      [("b", JsonValue.num 1), ("a", JsonValue.str "x")]
    = get_cache_key (fun s => s) "events"
      [("a", JsonValue.str "x"), ("b", JsonValue.num 1)] :=
  get_cache_key_order_independent (fun s => s) "events"
    [("b", JsonValue.num 1), ("a", JsonValue.str "x")]
    [("a", JsonValue.str "x"), ("b", JsonValue.num 1)]
    (List.Perm.swap ("a", JsonValue.str "x") ("b", JsonValue.num 1) [])
    (by simp)

/-- Dict assignment makes the assigned binding the one `lookup` finds. -/
lemma memInsert_lookup_self (st : MemCache) (k : String) (p : JsonValue × ℚ) :
    (memInsert st k p).lookup k = some p := by
  induction st with
  | nil => simp [memInsert]
  | cons e rest ih =>
    obtain ⟨k', p'⟩ := e
    by_cases h : k' = k
    · subst h
      simp [memInsert]
    · have hne : (k == k') = false := beq_eq_false_iff_ne.mpr (Ne.symm h)
      simp [memInsert, h, List.lookup_cons, hne, ih]

/-- C1: when the shared (Redis) store raises during `get_cached`, the
call falls through to the in-memory store and returns exactly its
answer; when it raises during `set_cached`, the value is written to the
in-memory store instead.  Both functions are total (every Redis
interaction sits under a catch-all `except`), so the caller observes no
error in either case, whatever the configuration and cache state. -/
theorem cache_shared_error_falls_back_to_local (cfg : CacheConfig) (st : MemCache)
    (k : String) (v : JsonValue) (ttl t0 now : ℚ) :
    get_cached cfg SharedGet.err st k now = localGet st k now ∧
    set_cached cfg SharedSet.err st k v ttl t0 = localSet st k v ttl t0 := by
  constructor
  · unfold get_cached
    split <;> rfl
  · unfold set_cached
    split <;> rfl

/-- C7: `get_cached` on a key that was never set returns absent
(`None`) and never raises (the function is total), in every cache mode
and for every state of the shared store: any shared-store answer other
than a hit — no client, a miss, or an error — combined with the key
being absent from the local store yields `None` with the local store
untouched. -/
theorem cache_get_never_set_absent (cfg : CacheConfig) (sg : SharedGet) (st : MemCache)
    (k : String) (now : ℚ) (hk : st.lookup k = none)
    (hsg : ∀ v, sg ≠ SharedGet.hit v) :
    get_cached cfg sg st k now = (JsonValue.null, st) := by
  have hloc : localGet st k now = (JsonValue.null, st) := by simp [localGet, hk]
  unfold get_cached
  split
  · cases sg with
    | noClient => exact hloc
    | hit v => exact absurd rfl (hsg v)
    | miss => rfl
    | err => exact hloc
  · exact hloc

/-- Witness for C7: redis mode with an erroring shared store and a local
store holding an unrelated key. -/
theorem cache_get_never_set_absent_witness :
    get_cached ⟨"redis", true⟩ SharedGet.err [("other", (JsonValue.num 1, 100))] "nope" 5
      = (JsonValue.null, [("other", (JsonValue.num 1, 100))]) :=
  cache_get_never_set_absent ⟨"redis", true⟩ SharedGet.err
    [("other", (JsonValue.num 1, 100))] "nope" 5 rfl (fun _v h => SharedGet.noConfusion h)

/-- C6: on the local store an entry written by `set_cached k v ttl` at
time `t0` is visible exactly while `now < t0 + ttl`: a read strictly
before expiry returns `v` and leaves the store unchanged; a read at or
after expiry returns absent and deletes the entry; a zero or negative
`ttl` behaves as immediately expired for every read not before the
write. -/
theorem cache_local_ttl_window (cfg : CacheConfig) (sg : SharedGet) (ss : SharedSet)
    (st : MemCache) (k : String) (v : JsonValue) (ttl t0 now : ℚ)
    (hcfg : ¬ (cfg.cacheType = "redis" ∧ cfg.redisAvailable = true)) :
    (now < t0 + ttl →
      get_cached cfg sg (set_cached cfg ss st k v ttl t0) k now
        = (v, set_cached cfg ss st k v ttl t0)) ∧
    (t0 + ttl ≤ now →
      get_cached cfg sg (set_cached cfg ss st k v ttl t0) k now
        = (JsonValue.null, memErase (set_cached cfg ss st k v ttl t0) k)) ∧
    (ttl ≤ 0 → t0 ≤ now →
      (get_cached cfg sg (set_cached cfg ss st k v ttl t0) k now).1 = JsonValue.null) := by
  have hset : set_cached cfg ss st k v ttl t0 = localSet st k v ttl t0 := by
    unfold set_cached
    rw [if_neg hcfg]
  have hget : ∀ st', get_cached cfg sg st' k now = localGet st' k now := by
    intro st'
    unfold get_cached
    rw [if_neg hcfg]
  refine ⟨?_, ?_, ?_⟩
  · intro hlt
    rw [hget, hset, localSet, localGet, memInsert_lookup_self]
    dsimp only
    rw [if_pos hlt]
  · intro hge
    rw [hget, hset, localSet, localGet, memInsert_lookup_self]
    dsimp only
    rw [if_neg (not_lt.mpr hge)]
  · intro httl hnow
    rw [hget, hset, localSet, localGet, memInsert_lookup_self]
    dsimp only
    rw [if_neg (not_lt.mpr (show t0 + ttl ≤ now by linarith))]

/-- Witness for C6: memory mode, `set k 7 (ttl 60)` at time 0, read at
time 30 hits. -/
theorem cache_local_ttl_window_witness :
    get_cached ⟨"memory", false⟩ SharedGet.miss
      (set_cached ⟨"memory", false⟩ SharedSet.ok [] "k" (JsonValue.num 7) 60 0) "k" 30
      = (JsonValue.num 7,
        set_cached ⟨"memory", false⟩ SharedSet.ok [] "k" (JsonValue.num 7) 60 0) :=
  (cache_local_ttl_window ⟨"memory", false⟩ SharedGet.miss SharedSet.ok [] "k"
    (JsonValue.num 7) 60 0 30 (by simp)).1 (by norm_num)

/-- C10: on the local store a cached `None` is indistinguishable from
absence: `set_cached k None ttl` followed by `get_cached k` within the
TTL returns `None`, exactly what `get_cached` returns on a key that was
never set. -/
theorem cache_null_value_indistinguishable_from_miss (cfg : CacheConfig)
    (sg : SharedGet) (ss : SharedSet) (st st2 : MemCache) (k : String) (ttl t0 now : ℚ)
    (hcfg : ¬ (cfg.cacheType = "redis" ∧ cfg.redisAvailable = true))
    (_ht : 0 < ttl) (hnow : now < t0 + ttl) (hk2 : st2.lookup k = none) :
    (get_cached cfg sg (set_cached cfg ss st k JsonValue.null ttl t0) k now).1
      = JsonValue.null ∧
    (get_cached cfg sg st2 k now).1 = JsonValue.null := by
  have hget : ∀ st', get_cached cfg sg st' k now = localGet st' k now := by
    intro st'
    unfold get_cached
    rw [if_neg hcfg]
  constructor
  · have hset : set_cached cfg ss st k JsonValue.null ttl t0
        = localSet st k JsonValue.null ttl t0 := by
      unfold set_cached
      rw [if_neg hcfg]
    rw [hget, hset, localSet, localGet, memInsert_lookup_self]
    dsimp only
    rw [if_pos hnow]
  · rw [hget, localGet, hk2]

/-- Witness for C10: memory mode, `set "k" None (ttl 60)` at time 0 read
at time 1, against the never-set key `"k"` in an unrelated store. -/
theorem cache_null_value_indistinguishable_from_miss_witness :
    (get_cached ⟨"memory", false⟩ SharedGet.miss
      (set_cached ⟨"memory", false⟩ SharedSet.ok [] "k" JsonValue.null 60 0) "k" 1).1
      = JsonValue.null ∧
    (get_cached ⟨"memory", false⟩ SharedGet.miss [("other", (JsonValue.num 2, 9))] "k" 1).1
      = JsonValue.null :=
  cache_null_value_indistinguishable_from_miss ⟨"memory", false⟩ SharedGet.miss
    SharedSet.ok [] [("other", (JsonValue.num 2, 9))] "k" 60 0 1
    (by simp) (by norm_num) (by norm_num) rfl

/-- C8: `get_cache_stats` is introspection only: it leaves the local
store exactly as it was, always reports the configured TTL, and reports
the backend kind with its entry/key count — `"memory"` with the local
entry count whenever the Redis branch is not taken, `"redis"` with the
shared key count when it answers. -/
theorem get_cache_stats_introspection_only (cfg : CacheConfig) (ttlCfg : ℤ)
    (ss : SharedStats) (st : MemCache) :
    (get_cache_stats cfg ttlCfg ss st).2 = st ∧
    (get_cache_stats cfg ttlCfg ss st).1.ttlSeconds = ttlCfg ∧
    (¬ (cfg.cacheType = "redis" ∧ cfg.redisAvailable = true) →
      (get_cache_stats cfg ttlCfg ss st).1.type = "memory" ∧
      (get_cache_stats cfg ttlCfg ss st).1.entries = st.length) ∧
    (∀ n h m, (cfg.cacheType = "redis" ∧ cfg.redisAvailable = true) →
      ss = SharedStats.ok n h m →
      (get_cache_stats cfg ttlCfg ss st).1.type = "redis" ∧
      (get_cache_stats cfg ttlCfg ss st).1.entries = n) := by
  refine ⟨?_, ?_, ?_, ?_⟩
  · unfold get_cache_stats
    split
    · cases ss <;> rfl
    · rfl
  · unfold get_cache_stats
    split
    · cases ss <;> rfl
    · rfl
  · intro hnot
    unfold get_cache_stats
    rw [if_neg hnot]
    exact ⟨rfl, rfl⟩
  · intro n h m hmode hss
    subst hss
    unfold get_cache_stats
    rw [if_pos hmode]
    exact ⟨rfl, rfl⟩

/-- Witness for C8: memory mode over a one-entry store. -/
theorem get_cache_stats_introspection_only_witness :
    (get_cache_stats ⟨"memory", false⟩ 60 SharedStats.err
      [("k", (JsonValue.null, 10))]).2 = [("k", (JsonValue.null, 10))] ∧
    (get_cache_stats ⟨"memory", false⟩ 60 SharedStats.err
      [("k", (JsonValue.null, 10))]).1.type = "memory" ∧
    (get_cache_stats ⟨"memory", false⟩ 60 SharedStats.err
      [("k", (JsonValue.null, 10))]).1.entries = 1 := by
  have h := get_cache_stats_introspection_only ⟨"memory", false⟩ 60 SharedStats.err
    [("k", (JsonValue.null, 10))]
  have hmem := h.2.2.1 (by simp)
  exact ⟨h.1, hmem.1, by rw [hmem.2]; rfl⟩

end OpenWebUI
